import Mathlib

/-!
Verification of the `EconomyEngine` treasury/economic state machine
(Solidity contract `EconomyEngine`, file `contracts/EconomyEngine.sol`).

The contract is shallowly embedded: `uint256` values become `Nat`
(Solidity 0.8 checked arithmetic reverts on underflow; every subtraction
in the source is either guarded by a `require`/branch or modelled with an
explicit underflow error), `mapping`s become total functions with the
zero-initialised default, and every external function becomes a pure
function `EconomyState → args → Except Err EconomyState` (plus return
values).  `block.timestamp` is passed explicitly as `now`.  Reverts are
`Except.error`; a reverted call leaves no state change, matching EVM
semantics.
-/

namespace EconomyEngine

/-- Mirror of `struct TreasurySnapshot`. -/
structure TreasurySnapshot where
  cultId : Nat
  balance : Nat
  lastUpdated : Nat
  totalInflow : Nat
  totalOutflow : Nat
  tickBurnAccumulated : Nat
  alive : Bool
deriving DecidableEq

/-- Revert reasons of the contract (the `require` messages / spec error
taxonomy).  `arithmeticUnderflow` models a checked-arithmetic revert on a
`uint256` subtraction that the source performs without a prior `require`
(`t.balance - lockedBalance[cultId]` when `lockedBalance > balance`, and
`fees - toPool - toYield` when the fee split exceeds the queued amount). -/
inductive Err where
  | alreadyInitialized
  | notAlive
  | insufficientBalance
  | stillAlive
  | neverDied
  | cooldownActive
  | belowMinimumFunding
  | selfGrantNotAllowed
  | insufficientUnlockedFunds
  | insufficientLocked
  | selfTransferNotAllowed
  | sourceDead
  | targetDead
  | insufficientAvailableFunds
  | noFeesToDistribute
  | invalidParameter
  | badFeeSplit
  | arithmeticUnderflow
deriving DecidableEq

/-- Mirror of `enum TransferType` (audit categorization only). -/
inductive TransferType where
  | raidSpoils
  | bribe
  | tribute
  | donation
deriving DecidableEq

/-- The full storage of the `EconomyEngine` contract. -/
structure EconomyState where
  treasuries : Nat → TreasurySnapshot
  totalProtocolFees : Nat
  totalBurned : Nat
  deathTimestamp : Nat → Nat
  deathCount : Nat → Nat
  totalDeaths : Nat
  raidRevenue : Nat → Nat
  stakingRevenue : Nat → Nat
  protocolFeeBps : Nat
  tickBurnRate : Nat
  deathCooldown : Nat
  rebirthMinFunding : Nat
  yieldPerFollower : Nat
  yieldPerStakedMon : Nat
  yieldAccuracyBonus : Nat
  maxYieldPerHarvest : Nat
  lastHarvestTime : Nat → Nat
  totalYieldEarned : Nat → Nat
  totalYieldMinted : Nat
  prophecyRewardPool : Nat
  prophecyRewardPerCorrect : Nat
  prophecyAccuracy : Nat → Nat
  totalProphecyRewards : Nat
  feeToPoolBps : Nat
  feeToYieldBps : Nat
  feeToBurnBps : Nat
  undistributedFees : Nat
  yieldSubsidyPool : Nat
  balanceViewPermissions : Nat → Nat → Bool
  lockedBalance : Nat → Nat

/-- The zero value of a `mapping(uint256 => TreasurySnapshot)` entry. -/
def zeroTreasury : TreasurySnapshot :=
  { cultId := 0, balance := 0, lastUpdated := 0, totalInflow := 0,
    totalOutflow := 0, tickBurnAccumulated := 0, alive := false }

/-- Contract storage right after the constructor: every mapping is zero
and the declared parameter defaults are in force
(`protocolFeeBps = 100`, `tickBurnRate = 5e13`, `deathCooldown = 5 minutes`,
`rebirthMinFunding = 1e16`, yield rates, `maxYieldPerHarvest = 1e16`,
`prophecyRewardPerCorrect = 5e14`, fee split 4000/3000/3000). -/
def initialEconomyState : EconomyState :=
  { treasuries := fun _ => zeroTreasury
    totalProtocolFees := 0
    totalBurned := 0
    deathTimestamp := fun _ => 0
    deathCount := fun _ => 0
    totalDeaths := 0
    raidRevenue := fun _ => 0
    stakingRevenue := fun _ => 0
    protocolFeeBps := 100
    tickBurnRate := 5 * 10 ^ 13
    deathCooldown := 300
    rebirthMinFunding := 10 ^ 16
    yieldPerFollower := 10 ^ 12
    yieldPerStakedMon := 5 * 10 ^ 11
    yieldAccuracyBonus := 2 * 10 ^ 12
    maxYieldPerHarvest := 10 ^ 16
    lastHarvestTime := fun _ => 0
    totalYieldEarned := fun _ => 0
    totalYieldMinted := 0
    prophecyRewardPool := 0
    prophecyRewardPerCorrect := 5 * 10 ^ 14
    prophecyAccuracy := fun _ => 0
    totalProphecyRewards := 0
    feeToPoolBps := 4000
    feeToYieldBps := 3000
    feeToBurnBps := 3000
    undistributedFees := 0
    yieldSubsidyPool := 0
    balanceViewPermissions := fun _ _ => false
    lockedBalance := fun _ => 0 }

/-- Point update of a `mapping(uint256 => TreasurySnapshot)`. -/
def updT (f : Nat → TreasurySnapshot) (c : Nat) (t : TreasurySnapshot) :
    Nat → TreasurySnapshot :=
  fun i => if i = c then t else f i

/-- Point update of a `mapping(uint256 => uint256)`. -/
def updN (f : Nat → Nat) (c v : Nat) : Nat → Nat :=
  fun i => if i = c then v else f i

/-- Point update of the nested visibility mapping. -/
def updB (f : Nat → Nat → Bool) (a b : Nat) (v : Bool) : Nat → Nat → Bool :=
  fun x y => if x = a ∧ y = b then v else f x y

@[simp] lemma updT_same (f : Nat → TreasurySnapshot) (c : Nat)
    (t : TreasurySnapshot) : updT f c t c = t := by
  simp [updT]

@[simp] lemma updT_other (f : Nat → TreasurySnapshot) (c : Nat)
    (t : TreasurySnapshot) (i : Nat) (h : i ≠ c) : updT f c t i = f i := by
  simp [updT, h]

@[simp] lemma updN_same (f : Nat → Nat) (c v : Nat) : updN f c v c = v := by
  simp [updN]

@[simp] lemma updN_other (f : Nat → Nat) (c v i : Nat) (h : i ≠ c) :
    updN f c v i = f i := by
  simp [updN, h]

/-! ## The Babylonian integer square root (`_sqrt`)

The source loop

```text
uint256 z = (x + 1) / 2;
y = x;
while (z < y) { y = z; z = (x / z + z) / 2; }
```

is embedded with an explicit fuel argument; `y` strictly decreases on
every iteration, so fuel `x` (the initial `y`) always suffices and the
fueled function computes exactly the loop's result. -/

/-- One state of the loop is `(z, y)`; each iteration consumes one unit
of fuel.  With `y ≤ fuel` the fuel never runs out (proved below). -/
def sqrtGo (x : Nat) : Nat → Nat → Nat → Nat
  | 0, _, y => y
  | fuel + 1, z, y => if z < y then sqrtGo x fuel ((x / z + z) / 2) z else y

/-- Mirror of `function _sqrt(uint256 x)`. -/
def _sqrt (x : Nat) : Nat :=
  if x = 0 then 0 else sqrtGo x x ((x + 1) / 2) x

/-- Newton step bound: for `z > 0` the next iterate never drops below
`Nat.sqrt x`. -/
lemma sqrt_le_newton (x z : Nat) (hz : 0 < z) :
    Nat.sqrt x ≤ (x / z + z) / 2 := by
  set s := Nat.sqrt x with hs
  have hsx : s * s ≤ x := Nat.sqrt_le x
  have h2 : 2 * s ≤ x / z + z := by
    rcases le_or_lt (2 * s) z with h | h
    · exact le_trans h (Nat.le_add_left z (x / z))
    · have hmul : (2 * s - z) * z ≤ s * s := by
        zify [le_of_lt h]
        nlinarith [sq_nonneg ((s : ℤ) - z)]
      have hdiv : 2 * s - z ≤ x / z :=
        (Nat.le_div_iff_mul_le hz).mpr (le_trans hmul hsx)
      omega
  calc s = 2 * s / 2 := by omega
    _ ≤ (x / z + z) / 2 := Nat.div_le_div_right h2

/-- Loop invariant: if both `z` and `y` dominate `Nat.sqrt x`, the exit
condition forces `y * y ≤ x`, and the fuel dominates `y`, then the loop
returns exactly `Nat.sqrt x`. -/
lemma sqrtGo_eq_sqrt (x : Nat) (hx : 0 < x) :
    ∀ fuel y z, y ≤ fuel → Nat.sqrt x ≤ z → Nat.sqrt x ≤ y →
      (y ≤ z → y * y ≤ x) → sqrtGo x fuel z y = Nat.sqrt x := by
  intro fuel
  induction fuel with
  | zero =>
    intro y z hfuel hz hy _
    have hy0 : y = 0 := by omega
    subst hy0
    simp only [sqrtGo]
    omega
  | succ fuel ih =>
    intro y z hfuel hz hy hexit
    rw [sqrtGo]
    by_cases hzy : z < y
    · -- loop body: `z < y`, recurse with `y' = z`, `z' = (x / z + z) / 2`
      rw [if_pos hzy]
      have hzpos : 0 < z := by
        have : 0 < Nat.sqrt x := Nat.sqrt_pos.mpr hx
        omega
      refine ih z ((x / z + z) / 2) (by omega) (sqrt_le_newton x z hzpos) hz ?_
      intro hle
      -- `z ≤ (x / z + z) / 2` forces `z ≤ x / z`, hence `z * z ≤ x`
      have h1 : 2 * z ≤ x / z + z := by
        have := (Nat.le_div_iff_mul_le (k := 2) (by omega)).mp hle
        omega
      have h2 : z ≤ x / z := by omega
      have := (Nat.le_div_iff_mul_le hzpos).mp h2
      linarith [this]
    · -- exit: `y ≤ z` gives `y * y ≤ x`, so `y ≤ sqrt x`; with `hy`, equal
      rw [if_neg hzy]
      have h1 : y * y ≤ x := hexit (by omega)
      have h2 : y ≤ Nat.sqrt x := Nat.le_sqrt.mpr h1
      omega

/-- The contract's `_sqrt` computes the integer square root. -/
lemma _sqrt_eq_sqrt (x : Nat) : _sqrt x = Nat.sqrt x := by
  unfold _sqrt
  split
  · simp [*]
  · rename_i hx0
    have hx : 0 < x := Nat.pos_of_ne_zero hx0
    have hs : Nat.sqrt x * Nat.sqrt x ≤ x := Nat.sqrt_le x
    apply sqrtGo_eq_sqrt x hx x x ((x + 1) / 2) le_rfl
    · -- `sqrt x ≤ (x + 1) / 2` since `2 * sqrt x ≤ sqrt x ^ 2 + 1 ≤ x + 1`
      have h1 : 2 * Nat.sqrt x ≤ Nat.sqrt x * Nat.sqrt x + 1 := by nlinarith
      have h2 : 2 * Nat.sqrt x ≤ x + 1 := by omega
      omega
    · exact Nat.sqrt_le_self x
    · intro hle
      -- `x ≤ (x + 1) / 2` forces `x ≤ 1`, i.e. `x = 1`
      have hx1 : x = 1 := by omega
      subst hx1
      omega

/-! ## Contract operations -/

/-- Mirror of `initTreasury`: requires `treasuries[cultId].lastUpdated == 0`. -/
def initTreasury (s : EconomyState) (now cultId initialBalance : Nat) :
    Except Err EconomyState :=
  if (s.treasuries cultId).lastUpdated ≠ 0 then .error .alreadyInitialized
  else
    let t : TreasurySnapshot :=
      { cultId := cultId, balance := initialBalance, lastUpdated := now,
        totalInflow := initialBalance, totalOutflow := 0,
        tickBurnAccumulated := 0, alive := true }
    .ok { s with treasuries := updT s.treasuries cultId t }

/-- Mirror of `collectFee`; returns `(state, fee, netAmount)`.  The
`netAmount = amount - fee` subtraction is checked (it cannot underflow
while `protocolFeeBps ≤ 10000`). -/
def collectFee (s : EconomyState) (cultId amount : Nat) :
    Except Err (EconomyState × Nat × Nat) :=
  let _ := cultId
  let fee := amount * s.protocolFeeBps / 10000
  if fee ≤ amount then
    .ok ({ s with totalProtocolFees := s.totalProtocolFees + fee,
                  undistributedFees := s.undistributedFees + fee },
         fee, amount - fee)
  else .error .arithmeticUnderflow

/-- Mirror of `applyTickBurn`; returns `(state, burned, died)`. -/
def applyTickBurn (s : EconomyState) (now cultId : Nat) :
    Except Err (EconomyState × Nat × Bool) :=
  let t := s.treasuries cultId
  if t.alive then
    if t.balance ≤ s.tickBurnRate then
      -- death spiral: burn the entire remaining balance
      let burned := t.balance
      let t' := { t with balance := 0,
                         tickBurnAccumulated := t.tickBurnAccumulated + burned,
                         totalOutflow := t.totalOutflow + burned,
                         alive := false, lastUpdated := now }
      .ok ({ s with treasuries := updT s.treasuries cultId t',
                    deathTimestamp := updN s.deathTimestamp cultId now,
                    deathCount := updN s.deathCount cultId (s.deathCount cultId + 1),
                    totalDeaths := s.totalDeaths + 1,
                    totalBurned := s.totalBurned + burned }, burned, true)
    else
      let burned := s.tickBurnRate
      let t' := { t with balance := t.balance - burned,
                         tickBurnAccumulated := t.tickBurnAccumulated + burned,
                         totalOutflow := t.totalOutflow + burned,
                         lastUpdated := now }
      .ok ({ s with treasuries := updT s.treasuries cultId t',
                    totalBurned := s.totalBurned + burned }, burned, false)
  else .error .notAlive

/-- Mirror of `recordInflow` (the keccak dispatch on the `source` string
becomes a string comparison). -/
def recordInflow (s : EconomyState) (now cultId amount : Nat)
    (source : String) : Except Err EconomyState :=
  let t := s.treasuries cultId
  if t.alive then
    let t' := { t with balance := t.balance + amount,
                       totalInflow := t.totalInflow + amount, lastUpdated := now }
    let s1 := { s with treasuries := updT s.treasuries cultId t' }
    if source = "raid" then
      .ok { s1 with raidRevenue := updN s.raidRevenue cultId (s.raidRevenue cultId + amount) }
    else if source = "staking" then
      .ok { s1 with stakingRevenue := updN s.stakingRevenue cultId (s.stakingRevenue cultId + amount) }
    else .ok s1
  else .error .notAlive

/-- Mirror of `recordOutflow`: requires `balance ≥ amount`; if the balance
reaches exactly 0 the entity dies with full death bookkeeping. -/
def recordOutflow (s : EconomyState) (now cultId amount : Nat)
    (reason : String) : Except Err EconomyState :=
  let _ := reason
  let t := s.treasuries cultId
  if t.alive then
    if t.balance < amount then .error .insufficientBalance
    else
      let newBal := t.balance - amount
      if newBal = 0 then
        let t' := { t with balance := newBal, totalOutflow := t.totalOutflow + amount,
                           lastUpdated := now, alive := false }
        .ok { s with treasuries := updT s.treasuries cultId t',
                     deathTimestamp := updN s.deathTimestamp cultId now,
                     deathCount := updN s.deathCount cultId (s.deathCount cultId + 1),
                     totalDeaths := s.totalDeaths + 1 }
      else
        let t' := { t with balance := newBal, totalOutflow := t.totalOutflow + amount,
                           lastUpdated := now }
        .ok { s with treasuries := updT s.treasuries cultId t' }
  else .error .notAlive

/-- Mirror of `rebirth`: the four `require`s in source order, then balance
set (not added) to `newFunding` and `totalInflow` increased. -/
def rebirth (s : EconomyState) (now cultId newFunding : Nat) :
    Except Err EconomyState :=
  if (s.treasuries cultId).alive then .error .stillAlive
  else if s.deathTimestamp cultId = 0 then .error .neverDied
  else if now < s.deathTimestamp cultId + s.deathCooldown then
    .error .cooldownActive
  else if newFunding < s.rebirthMinFunding then .error .belowMinimumFunding
  else
    let t := s.treasuries cultId
    let t' := { t with balance := newFunding, totalInflow := t.totalInflow + newFunding,
                       alive := true, lastUpdated := now }
    .ok { s with treasuries := updT s.treasuries cultId t' }

/-- Mirror of `grantBalanceView`: rejects `cultId == viewerCultId`. -/
def grantBalanceView (s : EconomyState) (cultId viewerCultId : Nat) :
    Except Err EconomyState :=
  if cultId = viewerCultId then .error .selfGrantNotAllowed
  else .ok { s with balanceViewPermissions := updB s.balanceViewPermissions cultId viewerCultId true }

/-- Mirror of `revokeBalanceView`: the source performs NO self-check; it
unconditionally writes `false`. -/
def revokeBalanceView (s : EconomyState) (cultId viewerCultId : Nat) :
    Except Err EconomyState :=
  .ok { s with balanceViewPermissions := updB s.balanceViewPermissions cultId viewerCultId false }

/-- Mirror of `lockFunds`: `available = balance - locked` is a checked
subtraction (reverts when `locked > balance`), then `amount ≤ available`
is required. -/
def lockFunds (s : EconomyState) (cultId amount : Nat) (reason : String) :
    Except Err EconomyState :=
  let _ := reason
  let t := s.treasuries cultId
  if t.alive then
    if s.lockedBalance cultId ≤ t.balance then
      let available := t.balance - s.lockedBalance cultId
      if amount ≤ available then
        .ok { s with lockedBalance := updN s.lockedBalance cultId (s.lockedBalance cultId + amount) }
      else .error .insufficientUnlockedFunds
    else .error .arithmeticUnderflow
  else .error .notAlive

/-- Mirror of `releaseFunds`: requires `lockedBalance ≥ amount`. -/
def releaseFunds (s : EconomyState) (cultId amount : Nat) :
    Except Err EconomyState :=
  if s.lockedBalance cultId < amount then .error .insufficientLocked
  else .ok { s with lockedBalance := updN s.lockedBalance cultId (s.lockedBalance cultId - amount) }

/-- Mirror of `transferFunds`: self-transfer rejected, both entities must
be alive, the amount is limited by the source's available (unlocked)
balance, and a source drained to 0 dies. -/
def transferFunds (s : EconomyState) (now fromCultId toCultId amount : Nat)
    (transferType : TransferType) : Except Err EconomyState :=
  let _ := transferType
  if fromCultId = toCultId then .error .selfTransferNotAllowed
  else
    let fromT := s.treasuries fromCultId
    let toT := s.treasuries toCultId
    if fromT.alive then
      if toT.alive then
        if s.lockedBalance fromCultId ≤ fromT.balance then
          if amount ≤ fromT.balance - s.lockedBalance fromCultId then
            let newFromBal := fromT.balance - amount
            let toT' := { toT with balance := toT.balance + amount,
                                   totalInflow := toT.totalInflow + amount,
                                   lastUpdated := now }
            if newFromBal = 0 then
              let fromT' := { fromT with balance := newFromBal,
                                         totalOutflow := fromT.totalOutflow + amount,
                                         lastUpdated := now, alive := false }
              .ok { s with treasuries := updT (updT s.treasuries fromCultId fromT') toCultId toT',
                           deathTimestamp := updN s.deathTimestamp fromCultId now,
                           deathCount := updN s.deathCount fromCultId (s.deathCount fromCultId + 1),
                           totalDeaths := s.totalDeaths + 1 }
            else
              let fromT' := { fromT with balance := newFromBal,
                                         totalOutflow := fromT.totalOutflow + amount,
                                         lastUpdated := now }
              .ok { s with treasuries := updT (updT s.treasuries fromCultId fromT') toCultId toT' }
          else .error .insufficientAvailableFunds
        else .error .arithmeticUnderflow
      else .error .targetDead
    else .error .sourceDead

/-- Raw productivity of `harvestYield`:
`followerCount * yieldPerFollower + totalStaked * yieldPerStakedMon / 1 ether
 + correctProphecies * yieldAccuracyBonus`. -/
def rawProductivity (s : EconomyState)
    (followerCount totalStaked correctProphecies : Nat) : Nat :=
  followerCount * s.yieldPerFollower
    + totalStaked * s.yieldPerStakedMon / 10 ^ 18
    + correctProphecies * s.yieldAccuracyBonus

/-- Base yield before subsidy and cap: `_sqrt(rawYield * 1e18)` when the
raw productivity is positive, otherwise 0. -/
def baseYieldAmount (s : EconomyState)
    (followerCount totalStaked correctProphecies : Nat) : Nat :=
  let raw := rawProductivity s followerCount totalStaked correctProphecies
  if 0 < raw then _sqrt (raw * 10 ^ 18) else 0

/-- Subsidy drawn from the pool: `base / 5`, capped to the pool, and only
when both the pool and the base yield are positive. -/
def subsidyAmount (pool base : Nat) : Nat :=
  if 0 < pool ∧ 0 < base then min (base / 5) pool else 0

/-- Yield after subsidy but before the `maxYieldPerHarvest` clamp. -/
def preClampYield (pool base : Nat) : Nat :=
  base + subsidyAmount pool base

/-- Mirror of `harvestYield`; returns `(state, yieldAmount)`.  Order of
effects as in source: cooldown check, base yield via `_sqrt`, subsidy
drained from the pool, clamp to `maxYieldPerHarvest`, credit (only when
positive), and `lastHarvestTime` updated unconditionally. -/
def harvestYield (s : EconomyState)
    (now cultId followerCount totalStaked correctProphecies : Nat) :
    Except Err (EconomyState × Nat) :=
  let t := s.treasuries cultId
  if t.alive then
    if now < s.lastHarvestTime cultId + 60 then .error .cooldownActive
    else
      let base := baseYieldAmount s followerCount totalStaked correctProphecies
      let subsidy := subsidyAmount s.yieldSubsidyPool base
      let amt := base + subsidy
      let yieldAmount := if s.maxYieldPerHarvest < amt then s.maxYieldPerHarvest else amt
      if 0 < yieldAmount then
        let t' := { t with balance := t.balance + yieldAmount,
                           totalInflow := t.totalInflow + yieldAmount,
                           lastUpdated := now }
        .ok ({ s with yieldSubsidyPool := s.yieldSubsidyPool - subsidy,
                      treasuries := updT s.treasuries cultId t',
                      totalYieldEarned := updN s.totalYieldEarned cultId (s.totalYieldEarned cultId + yieldAmount),
                      totalYieldMinted := s.totalYieldMinted + yieldAmount,
                      lastHarvestTime := updN s.lastHarvestTime cultId now }, yieldAmount)
      else
        .ok ({ s with yieldSubsidyPool := s.yieldSubsidyPool - subsidy,
                      lastHarvestTime := updN s.lastHarvestTime cultId now }, yieldAmount)
  else .error .notAlive

/-- Mirror of `claimProphecyReward`; returns `(state, reward)` with
`reward = min(prophecyRewardPerCorrect, prophecyRewardPool)` (silent
truncation, no error on an empty pool). -/
def claimProphecyReward (s : EconomyState) (now cultId : Nat) :
    Except Err (EconomyState × Nat) :=
  let t := s.treasuries cultId
  if t.alive then
    let s1 := { s with prophecyAccuracy := updN s.prophecyAccuracy cultId (s.prophecyAccuracy cultId + 1) }
    let reward := min s.prophecyRewardPerCorrect s.prophecyRewardPool
    if 0 < reward then
      let t' := { t with balance := t.balance + reward,
                         totalInflow := t.totalInflow + reward, lastUpdated := now }
      .ok ({ s1 with prophecyRewardPool := s.prophecyRewardPool - reward,
                     treasuries := updT s.treasuries cultId t',
                     totalProphecyRewards := s.totalProphecyRewards + reward }, reward)
    else .ok (s1, reward)
  else .error .notAlive

/-- Mirror of `distributeProtocolFees`: 40/30/30 style split with the
burn bucket taking the rounding remainder; `undistributedFees` reset. -/
def distributeProtocolFees (s : EconomyState) : Except Err EconomyState :=
  let fees := s.undistributedFees
  if fees = 0 then .error .noFeesToDistribute
  else
    let toPool := fees * s.feeToPoolBps / 10000
    let toYield := fees * s.feeToYieldBps / 10000
    if toPool + toYield ≤ fees then
      let toBurn := fees - toPool - toYield
      .ok { s with prophecyRewardPool := s.prophecyRewardPool + toPool,
                   yieldSubsidyPool := s.yieldSubsidyPool + toYield,
                   totalBurned := s.totalBurned + toBurn,
                   undistributedFees := 0 }
    else .error .arithmeticUnderflow

/-- Mirror of `setProtocolFeeBps` (max 5%). -/
def setProtocolFeeBps (s : EconomyState) (newBps : Nat) :
    Except Err EconomyState :=
  if newBps ≤ 500 then .ok { s with protocolFeeBps := newBps }
  else .error .invalidParameter

def setTickBurnRate (s : EconomyState) (newRate : Nat) :
    Except Err EconomyState :=
  .ok { s with tickBurnRate := newRate }

def setDeathCooldown (s : EconomyState) (newCooldown : Nat) :
    Except Err EconomyState :=
  .ok { s with deathCooldown := newCooldown }

def setRebirthMinFunding (s : EconomyState) (newMin : Nat) :
    Except Err EconomyState :=
  .ok { s with rebirthMinFunding := newMin }

def setYieldPerFollower (s : EconomyState) (newRate : Nat) :
    Except Err EconomyState :=
  .ok { s with yieldPerFollower := newRate }

def setYieldPerStakedMon (s : EconomyState) (newRate : Nat) :
    Except Err EconomyState :=
  .ok { s with yieldPerStakedMon := newRate }

def setMaxYieldPerHarvest (s : EconomyState) (newMax : Nat) :
    Except Err EconomyState :=
  .ok { s with maxYieldPerHarvest := newMax }

def setProphecyRewardPerCorrect (s : EconomyState) (newReward : Nat) :
    Except Err EconomyState :=
  .ok { s with prophecyRewardPerCorrect := newReward }

/-- Mirror of `setFeeDistribution`: the three bps must sum to 10000. -/
def setFeeDistribution (s : EconomyState) (poolBps yieldBps burnBps : Nat) :
    Except Err EconomyState :=
  if poolBps + yieldBps + burnBps = 10000 then
    .ok { s with feeToPoolBps := poolBps, feeToYieldBps := yieldBps,
                 feeToBurnBps := burnBps }
  else .error .badFeeSplit

/-! ## Operation alphabet and reachable states -/

/-- One external call to the contract (the `now` argument is the
`block.timestamp` of the call). -/
inductive Op where
  | initTreasury (now cultId initialBalance : Nat)
  | collectFee (cultId amount : Nat)
  | applyTickBurn (now cultId : Nat)
  | recordInflow (now cultId amount : Nat) (source : String)
  | recordOutflow (now cultId amount : Nat) (reason : String)
  | rebirth (now cultId newFunding : Nat)
  | grantBalanceView (cultId viewerCultId : Nat)
  | revokeBalanceView (cultId viewerCultId : Nat)
  | lockFunds (cultId amount : Nat) (reason : String)
  | releaseFunds (cultId amount : Nat)
  | transferFunds (now fromCultId toCultId amount : Nat)
      (transferType : TransferType)
  | harvestYield (now cultId followerCount totalStaked correctProphecies : Nat)
  | claimProphecyReward (now cultId : Nat)
  | distributeProtocolFees
  | setProtocolFeeBps (newBps : Nat)
  | setTickBurnRate (newRate : Nat)
  | setDeathCooldown (newCooldown : Nat)
  | setRebirthMinFunding (newMin : Nat)
  | setYieldPerFollower (newRate : Nat)
  | setYieldPerStakedMon (newRate : Nat)
  | setMaxYieldPerHarvest (newMax : Nat)
  | setProphecyRewardPerCorrect (newReward : Nat)
  | setFeeDistribution (poolBps yieldBps burnBps : Nat)

/-- State transition of a successful call (`none` = the call reverted,
leaving no state change). -/
def applyOp (s : EconomyState) : Op → Option EconomyState
  | .initTreasury now c b => (initTreasury s now c b).toOption
  | .collectFee c a => ((collectFee s c a).map (·.1)).toOption
  | .applyTickBurn now c => ((applyTickBurn s now c).map (·.1)).toOption
  | .recordInflow now c a src => (recordInflow s now c a src).toOption
  | .recordOutflow now c a r => (recordOutflow s now c a r).toOption
  | .rebirth now c f => (rebirth s now c f).toOption
  | .grantBalanceView c v => (grantBalanceView s c v).toOption
  | .revokeBalanceView c v => (revokeBalanceView s c v).toOption
  | .lockFunds c a r => (lockFunds s c a r).toOption
  | .releaseFunds c a => (releaseFunds s c a).toOption
  | .transferFunds now f t a ty => (transferFunds s now f t a ty).toOption
  | .harvestYield now c f st cp =>
      ((harvestYield s now c f st cp).map (·.1)).toOption
  | .claimProphecyReward now c =>
      ((claimProphecyReward s now c).map (·.1)).toOption
  | .distributeProtocolFees => (distributeProtocolFees s).toOption
  | .setProtocolFeeBps n => (setProtocolFeeBps s n).toOption
  | .setTickBurnRate n => (setTickBurnRate s n).toOption
  | .setDeathCooldown n => (setDeathCooldown s n).toOption
  | .setRebirthMinFunding n => (setRebirthMinFunding s n).toOption
  | .setYieldPerFollower n => (setYieldPerFollower s n).toOption
  | .setYieldPerStakedMon n => (setYieldPerStakedMon s n).toOption
  | .setMaxYieldPerHarvest n => (setMaxYieldPerHarvest s n).toOption
  | .setProphecyRewardPerCorrect n => (setProphecyRewardPerCorrect s n).toOption
  | .setFeeDistribution p y b => (setFeeDistribution s p y b).toOption

/-- Successful execution of `op` with the reverted case falling back to
the unchanged state — used only to build concrete example traces. -/
def stepD (s : EconomyState) (op : Op) : EconomyState :=
  (applyOp s op).getD s

/-- States reachable from the freshly deployed contract by finite
sequences of successful calls. -/
inductive Reachable : EconomyState → Prop where
  | init : Reachable initialEconomyState
  | step {s s' : EconomyState} {op : Op} :
      Reachable s → applyOp s op = some s' → Reachable s'

/-! ## Conservation and visibility invariants -/

/-- Inductive invariant of the contract:
1. per-entity conservation `balance + totalOutflow = totalInflow`;
2. a dead (or never-initialized) entity holds balance exactly 0;
3. no entity ever has a balance-view permission on itself. -/
def StateInv (s : EconomyState) : Prop :=
  (∀ id, (s.treasuries id).balance + (s.treasuries id).totalOutflow
      = (s.treasuries id).totalInflow)
  ∧ (∀ id, (s.treasuries id).alive = false → (s.treasuries id).balance = 0)
  ∧ (∀ id, s.balanceViewPermissions id id = false)

lemma StateInv.preserve {s s' : EconomyState} (hs : StateInv s)
    (ht : s'.treasuries = s.treasuries)
    (hp : s'.balanceViewPermissions = s.balanceViewPermissions) :
    StateInv s' := by
  obtain ⟨h1, h2, h3⟩ := hs
  exact ⟨fun id => by rw [ht]; exact h1 id,
         fun id => by rw [ht]; exact h2 id,
         fun id => by rw [hp]; exact h3 id⟩

lemma stateInv_initial : StateInv initialEconomyState := by
  refine ⟨fun id => ?_, fun id => ?_, fun id => ?_⟩ <;>
    simp [initialEconomyState, zeroTreasury]

lemma toOption_ok {ε α : Type} {e : Except ε α} {a : α}
    (h : e.toOption = some a) : e = .ok a := by
  cases e with
  | error e => simp [Except.toOption] at h
  | ok b => simp [Except.toOption] at h; simp [h]

lemma toOption_map_fst {ε α β : Type} {e : Except ε (α × β)} {a : α}
    (h : (e.map (·.1)).toOption = some a) : ∃ b, e = .ok (a, b) := by
  cases e with
  | error e => simp [Except.map, Except.toOption] at h
  | ok p =>
    simp [Except.map, Except.toOption] at h
    exact ⟨p.2, by simp [← h]⟩

lemma stateInv_initTreasury {s s' : EconomyState} {now c b : Nat}
    (h : initTreasury s now c b = .ok s') (hs : StateInv s) : StateInv s' := by
  obtain ⟨h1, h2, h3⟩ := hs
  simp only [initTreasury] at h
  split at h
  · exact Except.noConfusion h
  · simp only [Except.ok.injEq] at h
    rw [← h]
    refine ⟨fun id => ?_, fun id => ?_, fun id => h3 id⟩
    · by_cases hid : id = c
      · subst hid; simp
      · simpa [hid] using h1 id
    · by_cases hid : id = c
      · subst hid; simp
      · simpa [hid] using h2 id

lemma stateInv_collectFee {s : EconomyState} {c a : Nat}
    {r : EconomyState × Nat × Nat}
    (h : collectFee s c a = .ok r) (hs : StateInv s) : StateInv r.1 := by
  simp only [collectFee] at h
  split at h
  · simp only [Except.ok.injEq] at h
    rw [← h]
    exact hs.preserve rfl rfl
  · exact Except.noConfusion h

lemma stateInv_applyTickBurn {s : EconomyState} {now c : Nat}
    {r : EconomyState × Nat × Bool}
    (h : applyTickBurn s now c = .ok r) (hs : StateInv s) : StateInv r.1 := by
  obtain ⟨h1, h2, h3⟩ := hs
  simp only [applyTickBurn] at h
  split at h
  case isFalse => exact Except.noConfusion h
  case isTrue halive =>
    split at h
    case isTrue hle =>
      -- death-spiral branch
      simp only [Except.ok.injEq] at h
      rw [← h]
      refine ⟨fun id => ?_, fun id => ?_, fun id => h3 id⟩
      · by_cases hid : id = c
        · subst hid; simp; have := h1 id; omega
        · simpa [hid] using h1 id
      · by_cases hid : id = c
        · subst hid; simp
        · simpa [hid] using h2 id
    case isFalse hle =>
      -- regular burn branch
      simp only [Except.ok.injEq] at h
      rw [← h]
      refine ⟨fun id => ?_, fun id => ?_, fun id => h3 id⟩
      · by_cases hid : id = c
        · subst hid; simp; have := h1 id; omega
        · simpa [hid] using h1 id
      · by_cases hid : id = c
        · subst hid; simp [halive]
        · simpa [hid] using h2 id

lemma stateInv_recordInflow {s s' : EconomyState} {now c a : Nat}
    {src : String}
    (h : recordInflow s now c a src = .ok s') (hs : StateInv s) :
    StateInv s' := by
  obtain ⟨h1, h2, h3⟩ := hs
  simp only [recordInflow] at h
  split at h
  case isFalse => exact Except.noConfusion h
  case isTrue halive =>
    split at h
    · -- source "raid"
      simp only [Except.ok.injEq] at h
      rw [← h]
      refine ⟨fun id => ?_, fun id => ?_, fun id => h3 id⟩
      · by_cases hid : id = c
        · subst hid; simp; have := h1 id; omega
        · simpa [hid] using h1 id
      · by_cases hid : id = c
        · subst hid; simp [halive]
        · simpa [hid] using h2 id
    · split at h
      · -- source "staking"
        simp only [Except.ok.injEq] at h
        rw [← h]
        refine ⟨fun id => ?_, fun id => ?_, fun id => h3 id⟩
        · by_cases hid : id = c
          · subst hid; simp; have := h1 id; omega
          · simpa [hid] using h1 id
        · by_cases hid : id = c
          · subst hid; simp [halive]
          · simpa [hid] using h2 id
      · -- other sources
        simp only [Except.ok.injEq] at h
        rw [← h]
        refine ⟨fun id => ?_, fun id => ?_, fun id => h3 id⟩
        · by_cases hid : id = c
          · subst hid; simp; have := h1 id; omega
          · simpa [hid] using h1 id
        · by_cases hid : id = c
          · subst hid; simp [halive]
          · simpa [hid] using h2 id

lemma stateInv_recordOutflow {s s' : EconomyState} {now c a : Nat}
    {reason : String}
    (h : recordOutflow s now c a reason = .ok s') (hs : StateInv s) :
    StateInv s' := by
  obtain ⟨h1, h2, h3⟩ := hs
  simp only [recordOutflow] at h
  split at h
  case isFalse => exact Except.noConfusion h
  case isTrue halive =>
    split at h
    case isTrue => exact Except.noConfusion h
    case isFalse hlt =>
      split at h
      case isTrue hzero =>
        simp only [Except.ok.injEq] at h
        rw [← h]
        refine ⟨fun id => ?_, fun id => ?_, fun id => h3 id⟩
        · by_cases hid : id = c
          · subst hid; simp; have := h1 id; omega
          · simpa [hid] using h1 id
        · by_cases hid : id = c
          · subst hid; simp [hzero]
          · simpa [hid] using h2 id
      case isFalse hzero =>
        simp only [Except.ok.injEq] at h
        rw [← h]
        refine ⟨fun id => ?_, fun id => ?_, fun id => h3 id⟩
        · by_cases hid : id = c
          · subst hid; simp; have := h1 id; omega
          · simpa [hid] using h1 id
        · by_cases hid : id = c
          · subst hid; simp [halive]
          · simpa [hid] using h2 id

lemma stateInv_rebirth {s s' : EconomyState} {now c f : Nat}
    (h : rebirth s now c f = .ok s') (hs : StateInv s) : StateInv s' := by
  obtain ⟨h1, h2, h3⟩ := hs
  simp only [rebirth] at h
  split at h
  case isTrue => exact Except.noConfusion h
  case isFalse halive =>
    split at h
    · exact Except.noConfusion h
    split at h
    · exact Except.noConfusion h
    split at h
    · exact Except.noConfusion h
    simp only [Except.ok.injEq] at h
    rw [← h]
    have hbal : (s.treasuries c).balance = 0 := by
      apply h2 c
      revert halive
      cases (s.treasuries c).alive <;> simp
    refine ⟨fun id => ?_, fun id => ?_, fun id => h3 id⟩
    · by_cases hid : id = c
      · subst hid; simp; have := h1 id; omega
      · simpa [hid] using h1 id
    · by_cases hid : id = c
      · subst hid; simp
      · simpa [hid] using h2 id

lemma stateInv_grantBalanceView {s s' : EconomyState} {c v : Nat}
    (h : grantBalanceView s c v = .ok s') (hs : StateInv s) : StateInv s' := by
  obtain ⟨h1, h2, h3⟩ := hs
  simp only [grantBalanceView] at h
  split at h
  case isTrue => exact Except.noConfusion h
  case isFalse hne =>
    simp only [Except.ok.injEq] at h
    rw [← h]
    refine ⟨fun id => h1 id, fun id => h2 id, fun id => ?_⟩
    show updB s.balanceViewPermissions c v true id id = false
    simp only [updB]
    split
    case isTrue heq => omega
    case isFalse => exact h3 id

lemma stateInv_revokeBalanceView {s s' : EconomyState} {c v : Nat}
    (h : revokeBalanceView s c v = .ok s') (hs : StateInv s) : StateInv s' := by
  obtain ⟨h1, h2, h3⟩ := hs
  simp only [revokeBalanceView, Except.ok.injEq] at h
  rw [← h]
  refine ⟨fun id => h1 id, fun id => h2 id, fun id => ?_⟩
  show updB s.balanceViewPermissions c v false id id = false
  simp only [updB]
  split
  · rfl
  · exact h3 id

lemma stateInv_lockFunds {s s' : EconomyState} {c a : Nat} {reason : String}
    (h : lockFunds s c a reason = .ok s') (hs : StateInv s) : StateInv s' := by
  simp only [lockFunds] at h
  split at h
  case isFalse => exact Except.noConfusion h
  case isTrue =>
    split at h
    case isFalse => exact Except.noConfusion h
    case isTrue =>
      split at h
      case isFalse => exact Except.noConfusion h
      case isTrue =>
        simp only [Except.ok.injEq] at h
        rw [← h]
        exact hs.preserve rfl rfl

lemma stateInv_releaseFunds {s s' : EconomyState} {c a : Nat}
    (h : releaseFunds s c a = .ok s') (hs : StateInv s) : StateInv s' := by
  simp only [releaseFunds] at h
  split at h
  · exact Except.noConfusion h
  · simp only [Except.ok.injEq] at h
    rw [← h]
    exact hs.preserve rfl rfl

lemma stateInv_transferFunds {s s' : EconomyState} {now f t a : Nat}
    {ty : TransferType}
    (h : transferFunds s now f t a ty = .ok s') (hs : StateInv s) :
    StateInv s' := by
  obtain ⟨h1, h2, h3⟩ := hs
  simp only [transferFunds] at h
  split at h
  case isTrue => exact Except.noConfusion h
  case isFalse hne =>
    split at h
    case isFalse => exact Except.noConfusion h
    case isTrue hfalive =>
      split at h
      case isFalse => exact Except.noConfusion h
      case isTrue htalive =>
        split at h
        case isFalse => exact Except.noConfusion h
        case isTrue hlock =>
          split at h
          case isFalse => exact Except.noConfusion h
          case isTrue hamt =>
            split at h
            case isTrue hzero =>
              simp only [Except.ok.injEq] at h
              rw [← h]
              refine ⟨fun id => ?_, fun id => ?_, fun id => h3 id⟩
              · by_cases hidt : id = t
                · subst hidt; simp; have := h1 id; omega
                · by_cases hidf : id = f
                  · subst hidf
                    simp [hidt]
                    have := h1 id; omega
                  · simp only [updT_other _ _ _ _ hidt, updT_other _ _ _ _ hidf]
                    exact h1 id
              · by_cases hidt : id = t
                · subst hidt; simp [htalive]
                · by_cases hidf : id = f
                  · subst hidf
                    simp [hidt, hzero]
                  · simp only [updT_other _ _ _ _ hidt, updT_other _ _ _ _ hidf]
                    exact h2 id
            case isFalse hzero =>
              simp only [Except.ok.injEq] at h
              rw [← h]
              refine ⟨fun id => ?_, fun id => ?_, fun id => h3 id⟩
              · by_cases hidt : id = t
                · subst hidt; simp; have := h1 id; omega
                · by_cases hidf : id = f
                  · subst hidf
                    simp [hidt]
                    have := h1 id; omega
                  · simp only [updT_other _ _ _ _ hidt, updT_other _ _ _ _ hidf]
                    exact h1 id
              · by_cases hidt : id = t
                · subst hidt; simp [htalive]
                · by_cases hidf : id = f
                  · subst hidf; simp [hidt, hfalive]
                  · simp only [updT_other _ _ _ _ hidt, updT_other _ _ _ _ hidf]
                    exact h2 id

lemma stateInv_harvestYield {s : EconomyState} {now c f st cp : Nat}
    {r : EconomyState × Nat}
    (h : harvestYield s now c f st cp = .ok r) (hs : StateInv s) :
    StateInv r.1 := by
  obtain ⟨h1, h2, h3⟩ := hs
  simp only [harvestYield] at h
  split at h
  case isFalse => exact Except.noConfusion h
  case isTrue halive =>
    split at h
    · exact Except.noConfusion h
    -- the clamp ite is resolved first, then positivity of the final yield
    split at h
    case isTrue hclamp =>
      split at h
      case isTrue hpos =>
        simp only [Except.ok.injEq] at h
        rw [← h]
        refine ⟨fun id => ?_, fun id => ?_, fun id => h3 id⟩
        · by_cases hid : id = c
          · subst hid; simp; have := h1 id; omega
          · simpa [hid] using h1 id
        · by_cases hid : id = c
          · subst hid; simp [halive]
          · simpa [hid] using h2 id
      case isFalse hpos =>
        simp only [Except.ok.injEq] at h
        rw [← h]
        exact StateInv.preserve ⟨h1, h2, h3⟩ rfl rfl
    case isFalse hclamp =>
      split at h
      case isTrue hpos =>
        simp only [Except.ok.injEq] at h
        rw [← h]
        refine ⟨fun id => ?_, fun id => ?_, fun id => h3 id⟩
        · by_cases hid : id = c
          · subst hid; simp; have := h1 id; omega
          · simpa [hid] using h1 id
        · by_cases hid : id = c
          · subst hid; simp [halive]
          · simpa [hid] using h2 id
      case isFalse hpos =>
        simp only [Except.ok.injEq] at h
        rw [← h]
        exact StateInv.preserve ⟨h1, h2, h3⟩ rfl rfl

lemma stateInv_claimProphecyReward {s : EconomyState} {now c : Nat}
    {r : EconomyState × Nat}
    (h : claimProphecyReward s now c = .ok r) (hs : StateInv s) :
    StateInv r.1 := by
  obtain ⟨h1, h2, h3⟩ := hs
  simp only [claimProphecyReward] at h
  split at h
  case isFalse => exact Except.noConfusion h
  case isTrue halive =>
    split at h
    · -- positive reward: credited to balance and totalInflow
      simp only [Except.ok.injEq] at h
      rw [← h]
      refine ⟨fun id => ?_, fun id => ?_, fun id => h3 id⟩
      · by_cases hid : id = c
        · subst hid; simp; have := h1 id; omega
        · simpa [hid] using h1 id
      · by_cases hid : id = c
        · subst hid; simp [halive]
        · simpa [hid] using h2 id
    · -- zero reward: only the accuracy counter moves
      simp only [Except.ok.injEq] at h
      rw [← h]
      exact StateInv.preserve ⟨h1, h2, h3⟩ rfl rfl

lemma stateInv_distributeProtocolFees {s s' : EconomyState}
    (h : distributeProtocolFees s = .ok s') (hs : StateInv s) : StateInv s' := by
  simp only [distributeProtocolFees] at h
  split at h
  · exact Except.noConfusion h
  · split at h
    · simp only [Except.ok.injEq] at h
      rw [← h]
      exact hs.preserve rfl rfl
    · exact Except.noConfusion h

/-- Any successful call preserves the inductive invariant. -/
lemma stateInv_step {s s' : EconomyState} {op : Op}
    (h : applyOp s op = some s') (hs : StateInv s) : StateInv s' := by
  cases op with
  | initTreasury now c b =>
    exact stateInv_initTreasury (toOption_ok h) hs
  | collectFee c a =>
    obtain ⟨v, hv⟩ := toOption_map_fst h
    exact stateInv_collectFee hv hs
  | applyTickBurn now c =>
    obtain ⟨v, hv⟩ := toOption_map_fst h
    exact stateInv_applyTickBurn hv hs
  | recordInflow now c a src =>
    exact stateInv_recordInflow (toOption_ok h) hs
  | recordOutflow now c a reason =>
    exact stateInv_recordOutflow (toOption_ok h) hs
  | rebirth now c f =>
    exact stateInv_rebirth (toOption_ok h) hs
  | grantBalanceView c v =>
    exact stateInv_grantBalanceView (toOption_ok h) hs
  | revokeBalanceView c v =>
    exact stateInv_revokeBalanceView (toOption_ok h) hs
  | lockFunds c a r =>
    exact stateInv_lockFunds (toOption_ok h) hs
  | releaseFunds c a =>
    exact stateInv_releaseFunds (toOption_ok h) hs
  | transferFunds now f t a ty =>
    exact stateInv_transferFunds (toOption_ok h) hs
  | harvestYield now c f st cp =>
    obtain ⟨v, hv⟩ := toOption_map_fst h
    exact stateInv_harvestYield hv hs
  | claimProphecyReward now c =>
    obtain ⟨v, hv⟩ := toOption_map_fst h
    exact stateInv_claimProphecyReward hv hs
  | distributeProtocolFees =>
    exact stateInv_distributeProtocolFees (toOption_ok h) hs
  | setProtocolFeeBps n =>
    have h' : setProtocolFeeBps s n = .ok s' := toOption_ok h
    simp only [setProtocolFeeBps] at h'
    split at h'
    · simp only [Except.ok.injEq] at h'
      rw [← h']
      exact hs.preserve rfl rfl
    · exact Except.noConfusion h'
  | setTickBurnRate n =>
    have h' : setTickBurnRate s n = .ok s' := toOption_ok h
    simp only [setTickBurnRate, Except.ok.injEq] at h'
    rw [← h']
    exact hs.preserve rfl rfl
  | setDeathCooldown n =>
    have h' : setDeathCooldown s n = .ok s' := toOption_ok h
    simp only [setDeathCooldown, Except.ok.injEq] at h'
    rw [← h']
    exact hs.preserve rfl rfl
  | setRebirthMinFunding n =>
    have h' : setRebirthMinFunding s n = .ok s' := toOption_ok h
    simp only [setRebirthMinFunding, Except.ok.injEq] at h'
    rw [← h']
    exact hs.preserve rfl rfl
  | setYieldPerFollower n =>
    have h' : setYieldPerFollower s n = .ok s' := toOption_ok h
    simp only [setYieldPerFollower, Except.ok.injEq] at h'
    rw [← h']
    exact hs.preserve rfl rfl
  | setYieldPerStakedMon n =>
    have h' : setYieldPerStakedMon s n = .ok s' := toOption_ok h
    simp only [setYieldPerStakedMon, Except.ok.injEq] at h'
    rw [← h']
    exact hs.preserve rfl rfl
  | setMaxYieldPerHarvest n =>
    have h' : setMaxYieldPerHarvest s n = .ok s' := toOption_ok h
    simp only [setMaxYieldPerHarvest, Except.ok.injEq] at h'
    rw [← h']
    exact hs.preserve rfl rfl
  | setProphecyRewardPerCorrect n =>
    have h' : setProphecyRewardPerCorrect s n = .ok s' := toOption_ok h
    simp only [setProphecyRewardPerCorrect, Except.ok.injEq] at h'
    rw [← h']
    exact hs.preserve rfl rfl
  | setFeeDistribution p y b =>
    have h' : setFeeDistribution s p y b = .ok s' := toOption_ok h
    simp only [setFeeDistribution] at h'
    split at h'
    · simp only [Except.ok.injEq] at h'
      rw [← h']
      exact hs.preserve rfl rfl
    · exact Except.noConfusion h'

/-! ## The escrow-lock inequality -/

/-- `lockedBalance[id] ≤ balance[id]` for every entity. -/
def LockInv (s : EconomyState) : Prop :=
  ∀ id, s.lockedBalance id ≤ (s.treasuries id).balance

lemma lockInv_lockFunds {s s' : EconomyState} {c a : Nat} {reason : String}
    (h : lockFunds s c a reason = .ok s') (hs : LockInv s) : LockInv s' := by
  simp only [lockFunds] at h
  split at h
  case isFalse => exact Except.noConfusion h
  case isTrue halive =>
    split at h
    case isFalse => exact Except.noConfusion h
    case isTrue hle =>
      split at h
      case isFalse => exact Except.noConfusion h
      case isTrue hamt =>
        simp only [Except.ok.injEq] at h
        rw [← h]
        intro id
        by_cases hid : id = c
        · subst hid; simp; omega
        · simpa [hid] using hs id

lemma lockInv_releaseFunds {s s' : EconomyState} {c a : Nat}
    (h : releaseFunds s c a = .ok s') (hs : LockInv s) : LockInv s' := by
  simp only [releaseFunds] at h
  split at h
  case isTrue => exact Except.noConfusion h
  case isFalse hge =>
    simp only [Except.ok.injEq] at h
    rw [← h]
    intro id
    by_cases hid : id = c
    · subst hid; simp; have := hs id; omega
    · simpa [hid] using hs id

lemma lockInv_transferFunds {s s' : EconomyState} {now f t a : Nat}
    {ty : TransferType}
    (h : transferFunds s now f t a ty = .ok s') (hs : LockInv s) : LockInv s' := by
  simp only [transferFunds] at h
  split at h
  case isTrue => exact Except.noConfusion h
  case isFalse hne =>
    split at h
    case isFalse => exact Except.noConfusion h
    case isTrue hfalive =>
      split at h
      case isFalse => exact Except.noConfusion h
      case isTrue htalive =>
        split at h
        case isFalse => exact Except.noConfusion h
        case isTrue hlock =>
          split at h
          case isFalse => exact Except.noConfusion h
          case isTrue hamt =>
            split at h <;>
            · simp only [Except.ok.injEq] at h
              rw [← h]
              intro id
              by_cases hidt : id = t
              · subst hidt; simp; have := hs id; omega
              · by_cases hidf : id = f
                · subst hidf
                  simp [hidt]
                  have := hs id; omega
                · simp only [updT_other _ _ _ _ hidt, updT_other _ _ _ _ hidf]
                  exact hs id

/-- `lockFunds` is always rejected when the requested amount exceeds the
unlocked part of the balance (this also covers the checked-subtraction
revert when `lockedBalance > balance`). -/
lemma lockFunds_rejected {s : EconomyState} {c a : Nat} {reason : String}
    (hgt : (s.treasuries c).balance < s.lockedBalance c + a) :
    (lockFunds s c a reason).toOption = none := by
  simp only [lockFunds]
  split
  case isFalse => rfl
  case isTrue halive =>
    split
    case isFalse => rfl
    case isTrue hle =>
      split
      case isFalse => rfl
      case isTrue hamt => exfalso; omega

/-- Every reachable state satisfies the inductive invariant. -/
lemma stateInv_reachable {s : EconomyState} (h : Reachable s) : StateInv s := by
  induction h with
  | init => exact stateInv_initial
  | step _ hstep ih => exact stateInv_step hstep ih

/-! ## Claim C1: per-entity conservation -/

def c1s1 : EconomyState := stepD initialEconomyState (.initTreasury 1 1 100)
def c1s2 : EconomyState := stepD c1s1 (.applyTickBurn 2 1)

lemma c1s1_reachable : Reachable c1s1 := by
  have h : applyOp initialEconomyState (Op.initTreasury 1 1 100) = some c1s1 := rfl
  exact Reachable.step Reachable.init h

lemma c1s2_reachable : Reachable c1s2 := by
  have h : applyOp c1s1 (Op.applyTickBurn 2 1) = some c1s2 := rfl
  exact Reachable.step c1s1_reachable h

/-- C1: in every reachable state, every entity's balance equals its
`totalInflow` minus its `totalOutflow` (stated subtraction-free as
`balance + totalOutflow = totalInflow`); moreover every dead entity holds
balance exactly 0, which is why `rebirth` (which sets balance to
`newFunding` instead of adding it) preserves the equation. -/
theorem C1_per_entity_conservation {s : EconomyState} (hs : Reachable s)
    (id : Nat) :
    (s.treasuries id).balance + (s.treasuries id).totalOutflow
      = (s.treasuries id).totalInflow
    ∧ ((s.treasuries id).alive = false → (s.treasuries id).balance = 0) :=
  ⟨(stateInv_reachable hs).1 id, (stateInv_reachable hs).2.1 id⟩

theorem C1_witness :
    (c1s2.treasuries 1).balance + (c1s2.treasuries 1).totalOutflow
      = (c1s2.treasuries 1).totalInflow
    ∧ ((c1s2.treasuries 1).alive = false → (c1s2.treasuries 1).balance = 0) :=
  C1_per_entity_conservation c1s2_reachable 1

/-! ## Claim C2: global conservation

The spec's extended equation
`Σ balance + prophecyRewardPool + yieldSubsidyPool + totalBurned
  = Σ totalInflow − Σ totalOutflow + totalYieldMinted`
fails on the code: a tick burn enters both `totalOutflow` and
`totalBurned` (double-counted), distributed fees enter the pools without
leaving any treasury, and harvested yield enters both `totalInflow` and
`totalYieldMinted`.  What does hold is plain ledger conservation. -/

def c2s1 : EconomyState := stepD initialEconomyState (.initTreasury 1 1 100)
def c2s2 : EconomyState := stepD c2s1 (.applyTickBurn 2 1)

lemma c2s1_reachable : Reachable c2s1 := by
  have h : applyOp initialEconomyState (Op.initTreasury 1 1 100) = some c2s1 := rfl
  exact Reachable.step Reachable.init h

lemma c2s2_reachable : Reachable c2s2 := by
  have h : applyOp c2s1 (Op.applyTickBurn 2 1) = some c2s2 := rfl
  exact Reachable.step c2s1_reachable h

/-- C2 (amended): in every reachable state, over any finite set of
entities, `Σ balance + Σ totalOutflow = Σ totalInflow` (global ledger
conservation); the spec's extended equation with the pools, `totalBurned`
and `totalYieldMinted` is refuted by `C2_counterexample`. -/
theorem C2_global_conservation_amended {s : EconomyState} (hs : Reachable s)
    (S : Finset Nat) :
    ((∑ i ∈ S, (s.treasuries i).balance)
        + ∑ i ∈ S, (s.treasuries i).totalOutflow)
      = ∑ i ∈ S, (s.treasuries i).totalInflow := by
  rw [← Finset.sum_add_distrib]
  exact Finset.sum_congr rfl fun i _ => (stateInv_reachable hs).1 i

theorem C2_witness :
    ((∑ i ∈ ({1} : Finset Nat), (c2s2.treasuries i).balance)
        + ∑ i ∈ ({1} : Finset Nat), (c2s2.treasuries i).totalOutflow)
      = ∑ i ∈ ({1} : Finset Nat), (c2s2.treasuries i).totalInflow :=
  C2_global_conservation_amended c2s2_reachable {1}

/-- C2 counterexample: after `initTreasury(1, 100)` at time 1 and one
`applyTickBurn(1)` at time 2 (which burns the whole balance of 100, the
death-spiral case), entity 1 is the only entity differing from the zero
record, so the sums over `{1}` are the sums over all entities.  The
claimed equation reads `0 + 0 + 0 + 100 = 100 − 100 + 0`, i.e.
`100 = 0`, which is false: the burned amount is counted both in
`totalOutflow` and in `totalBurned`. -/
theorem C2_counterexample :
    Reachable c2s2
    ∧ ((∑ i ∈ ({1} : Finset Nat), ((c2s2.treasuries i).balance : ℤ))
          + (c2s2.prophecyRewardPool : ℤ) + (c2s2.yieldSubsidyPool : ℤ)
          + (c2s2.totalBurned : ℤ)
        ≠ (∑ i ∈ ({1} : Finset Nat), ((c2s2.treasuries i).totalInflow : ℤ))
          - (∑ i ∈ ({1} : Finset Nat), ((c2s2.treasuries i).totalOutflow : ℤ))
          + (c2s2.totalYieldMinted : ℤ)) :=
  ⟨c2s2_reachable, by decide⟩

/-! ## Claim C3: the lock invariant

`lockFunds`, `releaseFunds` and `transferFunds` do respect
`lockedBalance ≤ balance`, and `lockFunds` beyond the available balance
is always rejected; but `recordOutflow` and `applyTickBurn` never consult
`lockedBalance`, so the inequality is NOT a reachable-state invariant. -/

def c3s1 : EconomyState := stepD initialEconomyState (.initTreasury 1 1 100)
def c3s2 : EconomyState := stepD c3s1 (.lockFunds 1 80 "escrow")
def c3s3 : EconomyState := stepD c3s2 (.recordOutflow 2 1 50 "expense")

lemma c3s1_reachable : Reachable c3s1 := by
  have h : applyOp initialEconomyState (Op.initTreasury 1 1 100) = some c3s1 := rfl
  exact Reachable.step Reachable.init h

lemma c3s2_reachable : Reachable c3s2 := by
  have h : applyOp c3s1 (Op.lockFunds 1 80 "escrow") = some c3s2 := rfl
  exact Reachable.step c3s1_reachable h

lemma c3s3_reachable : Reachable c3s3 := by
  have h : applyOp c3s2 (Op.recordOutflow 2 1 50 "expense") = some c3s3 := rfl
  exact Reachable.step c3s2_reachable h

/-- C3 (amended): `lockedBalance[id] ≤ balance[id]` is preserved by
`lockFunds`, `releaseFunds` and `transferFunds`, and `lockFunds` is
always rejected when the amount exceeds `balance − lockedBalance`;
however the inequality is not an invariant of every operation
(`recordOutflow` and `applyTickBurn` ignore locks — see
`C3_counterexample`). -/
theorem C3_lock_invariant_amended :
    (∀ s s' : EconomyState, ∀ c a : Nat, ∀ reason : String,
        lockFunds s c a reason = .ok s' → LockInv s → LockInv s')
    ∧ (∀ s s' : EconomyState, ∀ c a : Nat,
        releaseFunds s c a = .ok s' → LockInv s → LockInv s')
    ∧ (∀ s s' : EconomyState, ∀ now f t a : Nat, ∀ ty : TransferType,
        transferFunds s now f t a ty = .ok s' → LockInv s → LockInv s')
    ∧ (∀ s : EconomyState, ∀ c a : Nat, ∀ reason : String,
        (s.treasuries c).balance < s.lockedBalance c + a →
        (lockFunds s c a reason).toOption = none) :=
  ⟨fun _ _ _ _ _ h hs => lockInv_lockFunds h hs,
   fun _ _ _ _ h hs => lockInv_releaseFunds h hs,
   fun _ _ _ _ _ _ _ h hs => lockInv_transferFunds h hs,
   fun _ _ _ _ h => lockFunds_rejected h⟩

theorem C3_witness :
    lockFunds c3s1 1 80 "escrow" = .ok c3s2
    ∧ LockInv c3s2
    ∧ (c3s1.treasuries 2).balance < c3s1.lockedBalance 2 + 5
    ∧ (lockFunds c3s1 2 5 "bet").toOption = none := by
  have h1 : lockFunds c3s1 1 80 "escrow" = .ok c3s2 := rfl
  have hinv : LockInv c3s1 := fun id => Nat.zero_le _
  exact ⟨h1, C3_lock_invariant_amended.1 c3s1 c3s2 1 80 "escrow" h1 hinv,
    by decide, C3_lock_invariant_amended.2.2.2 c3s1 2 5 "bet" (by decide)⟩

/-- C3 counterexample: `initTreasury(1, 100)`, `lockFunds(1, 80)`, then
`recordOutflow(1, 50)` succeeds (it only checks the raw balance) and
leaves the reachable state with `balance = 50 < 80 = lockedBalance`. -/
theorem C3_counterexample :
    Reachable c3s3 ∧ (c3s3.treasuries 1).balance < c3s3.lockedBalance 1 :=
  ⟨c3s3_reachable, by decide⟩

/-! ## Claim C4: the Babylonian square root -/

/-- C4: the contract's `_sqrt` (a fueled rendering of the terminating
Babylonian loop) returns exactly `⌊√x⌋` for every input, and in
`harvestYield` the base yield is `_sqrt(raw * 1e18)` = `⌊√(raw·10¹⁸)⌋`
whenever the raw productivity is positive (and 0 otherwise). -/
theorem C4_sqrt_correct :
    (∀ x : Nat, _sqrt x = Nat.sqrt x)
    ∧ (∀ s : EconomyState, ∀ f st cp : Nat,
        baseYieldAmount s f st cp
          = if 0 < rawProductivity s f st cp
            then Nat.sqrt (rawProductivity s f st cp * 10 ^ 18) else 0) := by
  refine ⟨_sqrt_eq_sqrt, fun s f st cp => ?_⟩
  simp only [baseYieldAmount, _sqrt_eq_sqrt]

/-! ## Claim C5: death-spiral burn -/

def c5s1 : EconomyState := stepD initialEconomyState (.initTreasury 1 1 100)
def c5s2 : EconomyState := stepD c5s1 (.applyTickBurn 2 1)

/-- C5: a successful `applyTickBurn` burns `min(balance, tickBurnRate)`:
if `balance ≤ tickBurnRate` the entire remaining balance is burned, the
balance becomes exactly 0, the entity dies with full death bookkeeping
and `died = true`; otherwise exactly `tickBurnRate` is deducted and
`died = false`.  In both cases `tickBurnAccumulated`, `totalOutflow` and
`totalBurned` grow by the burned amount, and the balance never
underflows (`burned ≤ balance`). -/
theorem C5_death_spiral_burn {s s' : EconomyState} {now c burned : Nat}
    {died : Bool}
    (h : applyTickBurn s now c = .ok (s', burned, died)) :
    burned ≤ (s.treasuries c).balance
    ∧ (s'.treasuries c).balance = (s.treasuries c).balance - burned
    ∧ (s'.treasuries c).tickBurnAccumulated
        = (s.treasuries c).tickBurnAccumulated + burned
    ∧ (s'.treasuries c).totalOutflow = (s.treasuries c).totalOutflow + burned
    ∧ s'.totalBurned = s.totalBurned + burned
    ∧ ((s.treasuries c).balance ≤ s.tickBurnRate →
        burned = (s.treasuries c).balance
        ∧ (s'.treasuries c).balance = 0
        ∧ (s'.treasuries c).alive = false
        ∧ s'.deathTimestamp c = now
        ∧ s'.deathCount c = s.deathCount c + 1
        ∧ s'.totalDeaths = s.totalDeaths + 1
        ∧ died = true)
    ∧ (s.tickBurnRate < (s.treasuries c).balance →
        burned = s.tickBurnRate
        ∧ (s'.treasuries c).alive = (s.treasuries c).alive
        ∧ died = false) := by
  simp only [applyTickBurn] at h
  split at h
  case isFalse => exact Except.noConfusion h
  case isTrue halive =>
    split at h
    case isTrue hle =>
      simp only [Except.ok.injEq, Prod.mk.injEq] at h
      obtain ⟨hst, hb, hd⟩ := h
      subst hst; subst hb; subst hd
      refine ⟨le_rfl, by simp, by simp, by simp, rfl,
        fun _ => ⟨rfl, by simp, by simp, by simp, by simp, rfl, rfl⟩,
        fun hcond => absurd hle (by omega)⟩
    case isFalse hle =>
      simp only [Except.ok.injEq, Prod.mk.injEq] at h
      obtain ⟨hst, hb, hd⟩ := h
      subst hst; subst hb; subst hd
      refine ⟨by omega, by simp, by simp, by simp, rfl,
        fun hcond => absurd hcond (by omega),
        fun _ => ⟨rfl, by simp, rfl⟩⟩

theorem C5_witness :
    applyTickBurn c5s1 2 1 = .ok (c5s2, 100, true)
    ∧ (c5s1.treasuries 1).balance ≤ c5s1.tickBurnRate
    ∧ 100 = (c5s1.treasuries 1).balance
    ∧ (c5s2.treasuries 1).balance = 0
    ∧ (c5s2.treasuries 1).alive = false
    ∧ c5s2.deathTimestamp 1 = 2
    ∧ c5s2.deathCount 1 = c5s1.deathCount 1 + 1
    ∧ c5s2.totalDeaths = c5s1.totalDeaths + 1 := by
  have h : applyTickBurn c5s1 2 1 = .ok (c5s2, 100, true) := rfl
  have hc := (C5_death_spiral_burn h).2.2.2.2.2.1 (by decide)
  exact ⟨h, by decide, hc.1, hc.2.1, hc.2.2.1, hc.2.2.2.1,
    hc.2.2.2.2.1, hc.2.2.2.2.2.1⟩

/-! ## Claim C6: fee-split exactness -/

def c6s : EconomyState := { initialEconomyState with undistributedFees := 1000 }
def c6sAfter : EconomyState := stepD c6s .distributeProtocolFees

/-- C6: with a fee-split configuration summing to 10000 bps,
`distributeProtocolFees` fails with `NoFeesToDistribute` exactly when the
queue is empty; otherwise it moves `toPool = fees*poolBps/10000` into the
prophecy pool, `toYield = fees*yieldBps/10000` into the subsidy pool and
the remainder `toBurn = fees − toPool − toYield` into `totalBurned`
(so the three buckets sum exactly to `fees` despite rounding), and
resets `undistributedFees` to 0. -/
theorem C6_fee_split_exact {s : EconomyState}
    (hsum : s.feeToPoolBps + s.feeToYieldBps + s.feeToBurnBps = 10000) :
    (s.undistributedFees = 0 →
      distributeProtocolFees s = .error .noFeesToDistribute)
    ∧ (0 < s.undistributedFees →
        s.undistributedFees * s.feeToPoolBps / 10000
            + s.undistributedFees * s.feeToYieldBps / 10000
            + (s.undistributedFees
                - s.undistributedFees * s.feeToPoolBps / 10000
                - s.undistributedFees * s.feeToYieldBps / 10000)
          = s.undistributedFees
        ∧ distributeProtocolFees s
            = .ok { s with
                prophecyRewardPool := s.prophecyRewardPool + s.undistributedFees * s.feeToPoolBps / 10000,
                yieldSubsidyPool := s.yieldSubsidyPool + s.undistributedFees * s.feeToYieldBps / 10000,
                totalBurned := s.totalBurned + (s.undistributedFees - s.undistributedFees * s.feeToPoolBps / 10000 - s.undistributedFees * s.feeToYieldBps / 10000),
                undistributedFees := 0 }) := by
  have hb : s.feeToPoolBps + s.feeToYieldBps ≤ 10000 := by omega
  have h1 : s.undistributedFees * s.feeToPoolBps
      + s.undistributedFees * s.feeToYieldBps
      ≤ s.undistributedFees * 10000 := by
    calc s.undistributedFees * s.feeToPoolBps
          + s.undistributedFees * s.feeToYieldBps
        = s.undistributedFees * (s.feeToPoolBps + s.feeToYieldBps) :=
          (Nat.mul_add _ _ _).symm
      _ ≤ s.undistributedFees * 10000 := Nat.mul_le_mul_left _ hb
  have key : s.undistributedFees * s.feeToPoolBps / 10000
      + s.undistributedFees * s.feeToYieldBps / 10000
      ≤ s.undistributedFees := by omega
  refine ⟨fun h0 => ?_, fun hpos => ⟨by omega, ?_⟩⟩
  · simp only [distributeProtocolFees]
    rw [if_pos h0]
  · have hne : ¬ s.undistributedFees = 0 := by omega
    simp only [distributeProtocolFees]
    rw [if_neg hne, if_pos key]

theorem C6_witness :
    c6s.feeToPoolBps + c6s.feeToYieldBps + c6s.feeToBurnBps = 10000
    ∧ 0 < c6s.undistributedFees
    ∧ c6s.undistributedFees * c6s.feeToPoolBps / 10000
        + c6s.undistributedFees * c6s.feeToYieldBps / 10000
        + (c6s.undistributedFees
            - c6s.undistributedFees * c6s.feeToPoolBps / 10000
            - c6s.undistributedFees * c6s.feeToYieldBps / 10000)
      = c6s.undistributedFees
    ∧ distributeProtocolFees c6s = .ok c6sAfter := by
  have h := (C6_fee_split_exact (s := c6s) (by decide)).2 (by decide)
  exact ⟨by decide, by decide, h.1, h.2.trans rfl⟩

/-! ## Claim C7: yield monotonicity and cap -/

lemma sqrtYield_mono {r r' : Nat} (h : r ≤ r') :
    (if 0 < r then _sqrt (r * 10 ^ 18) else 0)
      ≤ (if 0 < r' then _sqrt (r' * 10 ^ 18) else 0) := by
  split
  case isTrue hr =>
    have hr' : 0 < r' := by omega
    rw [if_pos hr', _sqrt_eq_sqrt, _sqrt_eq_sqrt]
    exact Nat.sqrt_le_sqrt (Nat.mul_le_mul_right _ h)
  case isFalse => exact Nat.zero_le _

lemma preClampYield_mono {p b b' : Nat} (hb : b ≤ b') :
    preClampYield p b ≤ preClampYield p b' := by
  have hdiv : b / 5 ≤ b' / 5 := Nat.div_le_div_right hb
  simp only [preClampYield, subsidyAmount]
  split <;> split <;> omega

lemma baseYieldAmount_mono {s : EconomyState} {f st cp f' st' cp' : Nat}
    (hr : rawProductivity s f st cp ≤ rawProductivity s f' st' cp') :
    baseYieldAmount s f st cp ≤ baseYieldAmount s f' st' cp' := by
  simp only [baseYieldAmount]
  exact sqrtYield_mono hr

/-- C7: the pre-clamp harvest yield (base `_sqrt` yield plus the subsidy
drawn against a fixed pool) is non-decreasing in each of `followerCount`,
`totalStaked` and `correctProphecies` separately, and the final
`yieldAmount` of a successful `harvestYield` never exceeds
`maxYieldPerHarvest` (and is exactly what gets credited to the
balance when positive). -/
theorem C7_yield_monotonicity_and_cap :
    (∀ s : EconomyState, ∀ f f' st cp : Nat, f ≤ f' →
      preClampYield s.yieldSubsidyPool (baseYieldAmount s f st cp)
        ≤ preClampYield s.yieldSubsidyPool (baseYieldAmount s f' st cp))
    ∧ (∀ s : EconomyState, ∀ f st st' cp : Nat, st ≤ st' →
      preClampYield s.yieldSubsidyPool (baseYieldAmount s f st cp)
        ≤ preClampYield s.yieldSubsidyPool (baseYieldAmount s f st' cp))
    ∧ (∀ s : EconomyState, ∀ f st cp cp' : Nat, cp ≤ cp' →
      preClampYield s.yieldSubsidyPool (baseYieldAmount s f st cp)
        ≤ preClampYield s.yieldSubsidyPool (baseYieldAmount s f st cp'))
    ∧ (∀ s s' : EconomyState, ∀ now c f st cp y : Nat,
        harvestYield s now c f st cp = .ok (s', y) →
        y ≤ s.maxYieldPerHarvest
        ∧ (0 < y →
            (s'.treasuries c).balance = (s.treasuries c).balance + y)) := by
  refine ⟨?_, ?_, ?_, ?_⟩
  · intro s f f' st cp hf
    apply preClampYield_mono
    apply baseYieldAmount_mono
    simp only [rawProductivity]
    exact Nat.add_le_add_right
      (Nat.add_le_add_right (Nat.mul_le_mul_right _ hf) _) _
  · intro s f st st' cp hst
    apply preClampYield_mono
    apply baseYieldAmount_mono
    simp only [rawProductivity]
    exact Nat.add_le_add_right
      (Nat.add_le_add_left (Nat.div_le_div_right (Nat.mul_le_mul_right _ hst)) _) _
  · intro s f st cp cp' hcp
    apply preClampYield_mono
    apply baseYieldAmount_mono
    simp only [rawProductivity]
    exact Nat.add_le_add_left (Nat.mul_le_mul_right _ hcp) _
  · intro s s' now c f st cp y h
    simp only [harvestYield] at h
    split at h
    case isFalse => exact Except.noConfusion h
    case isTrue halive =>
      split at h
      · exact Except.noConfusion h
      split at h
      case isTrue hclamp =>
        split at h
        case isTrue hpos =>
          simp only [Except.ok.injEq, Prod.mk.injEq] at h
          obtain ⟨hst', hy⟩ := h
          subst hy
          refine ⟨le_rfl, fun _ => ?_⟩
          rw [← hst']
          simp
        case isFalse hpos =>
          simp only [Except.ok.injEq, Prod.mk.injEq] at h
          obtain ⟨hst', hy⟩ := h
          subst hy
          exact ⟨le_rfl, fun h0 => absurd h0 hpos⟩
      case isFalse hclamp =>
        split at h
        case isTrue hpos =>
          simp only [Except.ok.injEq, Prod.mk.injEq] at h
          obtain ⟨hst', hy⟩ := h
          subst hy
          refine ⟨by omega, fun _ => ?_⟩
          rw [← hst']
          simp
        case isFalse hpos =>
          simp only [Except.ok.injEq, Prod.mk.injEq] at h
          obtain ⟨hst', hy⟩ := h
          subst hy
          exact ⟨by omega, fun h0 => absurd h0 hpos⟩

def c7s1 : EconomyState := stepD initialEconomyState (.initTreasury 1 1 100)
def c7s2 : EconomyState := stepD c7s1 (.harvestYield 61 1 0 0 0)

theorem C7_witness :
    (0 : Nat) ≤ 0
    ∧ preClampYield initialEconomyState.yieldSubsidyPool
        (baseYieldAmount initialEconomyState 0 0 0)
      ≤ preClampYield initialEconomyState.yieldSubsidyPool
        (baseYieldAmount initialEconomyState 0 0 0)
    ∧ harvestYield c7s1 61 1 0 0 0 = .ok (c7s2, 0)
    ∧ 0 ≤ c7s1.maxYieldPerHarvest
    ∧ (0 < 0 → (c7s2.treasuries 1).balance = (c7s1.treasuries 1).balance + 0) := by
  have h : harvestYield c7s1 61 1 0 0 0 = .ok (c7s2, 0) := rfl
  have hc := C7_yield_monotonicity_and_cap.2.2.2 c7s1 c7s2 61 1 0 0 0 0 h
  exact ⟨le_rfl,
    C7_yield_monotonicity_and_cap.1 initialEconomyState 0 0 0 0 le_rfl,
    h, hc.1, hc.2⟩

/-! ## Claim C8: rebirth gating and effect -/

def c8s1 : EconomyState := stepD initialEconomyState (.initTreasury 1 1 100)
def c8s2 : EconomyState := stepD c8s1 (.applyTickBurn 2 1)

/-- C8: `rebirth` fails with `StillAlive` on a live entity, `NeverDied`
when `deathTimestamp = 0`, `CooldownActive` before
`deathTimestamp + deathCooldown`, and `BelowMinimumFunding` when the new
funding is under `rebirthMinFunding`; on success the balance is set to
exactly `newFunding`, `totalInflow` grows by `newFunding`, the entity is
alive again, and `deathCount`, `totalDeaths`, `totalOutflow` and
`tickBurnAccumulated` are unchanged. -/
theorem C8_rebirth_gating (s : EconomyState) (now c f : Nat) :
    ((s.treasuries c).alive = true → rebirth s now c f = .error .stillAlive)
    ∧ ((s.treasuries c).alive = false → s.deathTimestamp c = 0 →
        rebirth s now c f = .error .neverDied)
    ∧ ((s.treasuries c).alive = false → 0 < s.deathTimestamp c →
        now < s.deathTimestamp c + s.deathCooldown →
        rebirth s now c f = .error .cooldownActive)
    ∧ ((s.treasuries c).alive = false → 0 < s.deathTimestamp c →
        s.deathTimestamp c + s.deathCooldown ≤ now →
        f < s.rebirthMinFunding →
        rebirth s now c f = .error .belowMinimumFunding)
    ∧ ((s.treasuries c).alive = false → 0 < s.deathTimestamp c →
        s.deathTimestamp c + s.deathCooldown ≤ now →
        s.rebirthMinFunding ≤ f →
        (rebirth s now c f).map (fun s' =>
            ((s'.treasuries c).balance, (s'.treasuries c).totalInflow,
             (s'.treasuries c).alive, s'.deathCount c, s'.totalDeaths,
             (s'.treasuries c).totalOutflow,
             (s'.treasuries c).tickBurnAccumulated))
          = .ok (f, (s.treasuries c).totalInflow + f, true, s.deathCount c,
                 s.totalDeaths, (s.treasuries c).totalOutflow,
                 (s.treasuries c).tickBurnAccumulated)) := by
  refine ⟨fun halive => ?_, fun hdead hdt => ?_, fun hdead hdt hlt => ?_,
    fun hdead hdt hge hlt => ?_, fun hdead hdt hge hmin => ?_⟩
  · simp only [rebirth]
    rw [if_pos halive]
  · simp only [rebirth]
    rw [if_neg (by simp [hdead]), if_pos hdt]
  · simp only [rebirth]
    rw [if_neg (by simp [hdead]), if_neg (by omega), if_pos hlt]
  · simp only [rebirth]
    rw [if_neg (by simp [hdead]), if_neg (by omega), if_neg (by omega),
      if_pos hlt]
  · simp only [rebirth]
    rw [if_neg (by simp [hdead]), if_neg (by omega), if_neg (by omega),
      if_neg (by omega)]
    simp [Except.map]

theorem C8_witness :
    (c8s2.treasuries 1).alive = false
    ∧ 0 < c8s2.deathTimestamp 1
    ∧ c8s2.deathTimestamp 1 + c8s2.deathCooldown ≤ 302
    ∧ c8s2.rebirthMinFunding ≤ 10 ^ 16
    ∧ (rebirth c8s2 302 1 (10 ^ 16)).map (fun s' =>
        ((s'.treasuries 1).balance, (s'.treasuries 1).totalInflow,
         (s'.treasuries 1).alive, s'.deathCount 1, s'.totalDeaths,
         (s'.treasuries 1).totalOutflow,
         (s'.treasuries 1).tickBurnAccumulated))
      = .ok (10 ^ 16, (c8s2.treasuries 1).totalInflow + 10 ^ 16, true,
             c8s2.deathCount 1, c8s2.totalDeaths,
             (c8s2.treasuries 1).totalOutflow,
             (c8s2.treasuries 1).tickBurnAccumulated) := by
  refine ⟨by decide, by decide, by decide, by decide, ?_⟩
  exact (C8_rebirth_gating c8s2 302 1 (10 ^ 16)).2.2.2.2
    (by decide) (by decide) (by decide) (by decide)

/-! ## Claim C9: visibility self-edges

`grantBalanceView` rejects `ownerId == viewerId`, but `revokeBalanceView`
in the source has NO self-check: it succeeds on a self-pair.  Because
grants to self are impossible, the self-entry is `false` in every
reachable state, so the successful revoke leaves the matrix value
unchanged — but the call is not rejected, contrary to the claim. -/

/-- C9 (amended): `grantBalanceView(o, o)` rejects with
`SelfGrantNotAllowed` (and, failing, changes nothing); `revokeBalanceView`
performs no self-check — `revokeBalanceView(o, o)` succeeds, writing
`false` into the `(o, o)` entry and leaving every other entry unchanged;
since self-grants are impossible, that entry is already `false` in every
reachable state, so the matrix is left value-unchanged. -/
theorem C9_visibility_self_edges (s : EconomyState) (o : Nat) :
    grantBalanceView s o o = .error .selfGrantNotAllowed
    ∧ (revokeBalanceView s o o).map (fun s' => s'.balanceViewPermissions o o)
        = .ok false
    ∧ (∀ a b : Nat, ¬(a = o ∧ b = o) →
        (revokeBalanceView s o o).map
            (fun s' => s'.balanceViewPermissions a b)
          = .ok (s.balanceViewPermissions a b))
    ∧ (Reachable s → s.balanceViewPermissions o o = false) := by
  refine ⟨?_, ?_, ?_, fun hr => (stateInv_reachable hr).2.2 o⟩
  · simp [grantBalanceView]
  · simp [revokeBalanceView, Except.map, updB]
  · intro a b hab
    simp [revokeBalanceView, Except.map, updB, hab]

theorem C9_witness :
    grantBalanceView initialEconomyState 1 1 = .error .selfGrantNotAllowed
    ∧ Reachable initialEconomyState
    ∧ initialEconomyState.balanceViewPermissions 1 1 = false :=
  ⟨(C9_visibility_self_edges initialEconomyState 1).1, Reachable.init,
   (C9_visibility_self_edges initialEconomyState 1).2.2.2 Reachable.init⟩

/-- C9 counterexample: `revokeBalanceView(1, 1)` on the freshly deployed
state does NOT reject the self-pair with `SelfGrantNotAllowed` — the call
succeeds, refuting the claim that both calls reject `ownerId == viewerId`. -/
theorem C9_counterexample :
    (revokeBalanceView initialEconomyState 1 1).toOption.isSome = true
    ∧ revokeBalanceView initialEconomyState 1 1
        ≠ .error .selfGrantNotAllowed := by
  constructor
  · rfl
  · simp [revokeBalanceView]

/-! ## Claim C10: subsidy drained past the cap -/

/-- C10: in a successful `harvestYield` with a positive subsidy pool and
positive base yield, the pool is drained by the full
`min(base/5, pool)` BEFORE the `maxYieldPerHarvest` clamp, while the
credited yield is `min(base + subsidy, maxYieldPerHarvest)`; hence when
`base + subsidy` exceeds the cap, the drained subsidy strictly exceeds
`maxYieldPerHarvest − base` — part of the drained subsidy is never
credited to any entity. -/
theorem C10_subsidy_drained_past_cap {s s' : EconomyState}
    {now c f st cp y : Nat}
    (h : harvestYield s now c f st cp = .ok (s', y))
    (hpool : 0 < s.yieldSubsidyPool)
    (hbase : 0 < baseYieldAmount s f st cp) :
    s'.yieldSubsidyPool
        = s.yieldSubsidyPool
            - min (baseYieldAmount s f st cp / 5) s.yieldSubsidyPool
    ∧ y = min (baseYieldAmount s f st cp
            + min (baseYieldAmount s f st cp / 5) s.yieldSubsidyPool)
          s.maxYieldPerHarvest
    ∧ (s.maxYieldPerHarvest
          < baseYieldAmount s f st cp
            + min (baseYieldAmount s f st cp / 5) s.yieldSubsidyPool →
        (s.maxYieldPerHarvest : ℤ) - (baseYieldAmount s f st cp : ℤ)
          < (min (baseYieldAmount s f st cp / 5) s.yieldSubsidyPool : ℤ)) := by
  have hsub : subsidyAmount s.yieldSubsidyPool (baseYieldAmount s f st cp)
      = min (baseYieldAmount s f st cp / 5) s.yieldSubsidyPool := by
    simp [subsidyAmount, hpool, hbase]
  simp only [harvestYield, hsub] at h
  split at h
  case isFalse => exact Except.noConfusion h
  case isTrue halive =>
    split at h
    · exact Except.noConfusion h
    split at h
    case isTrue hclamp =>
      split at h
      case isTrue hpos =>
        simp only [Except.ok.injEq, Prod.mk.injEq] at h
        obtain ⟨hst', hy⟩ := h
        subst hy
        rw [← hst']
        exact ⟨rfl, by omega, fun hgt => by omega⟩
      case isFalse hpos =>
        simp only [Except.ok.injEq, Prod.mk.injEq] at h
        obtain ⟨hst', hy⟩ := h
        subst hy
        rw [← hst']
        exact ⟨rfl, by omega, fun hgt => by omega⟩
    case isFalse hclamp =>
      split at h
      case isTrue hpos =>
        simp only [Except.ok.injEq, Prod.mk.injEq] at h
        obtain ⟨hst', hy⟩ := h
        subst hy
        rw [← hst']
        exact ⟨rfl, by omega, fun hgt => by omega⟩
      case isFalse hpos =>
        simp only [Except.ok.injEq, Prod.mk.injEq] at h
        obtain ⟨hst', hy⟩ := h
        subst hy
        rw [← hst']
        exact ⟨rfl, by omega, fun hgt => by omega⟩

def c10s1 : EconomyState := stepD initialEconomyState (.initTreasury 1 1 100)
def c10s2 : EconomyState := stepD c10s1 (.collectFee 1 100000)
def c10s3 : EconomyState := stepD c10s2 .distributeProtocolFees
def c10s4 : EconomyState := stepD c10s3 (.setMaxYieldPerHarvest 100)
def c10s5 : EconomyState := stepD c10s4 (.harvestYield 61 1 1 0 0)

theorem C10_witness :
    harvestYield c10s4 61 1 1 0 0 = .ok (c10s5, 100)
    ∧ 0 < c10s4.yieldSubsidyPool
    ∧ 0 < baseYieldAmount c10s4 1 0 0
    ∧ c10s5.yieldSubsidyPool
        = c10s4.yieldSubsidyPool
            - min (baseYieldAmount c10s4 1 0 0 / 5) c10s4.yieldSubsidyPool
    ∧ 100 = min (baseYieldAmount c10s4 1 0 0
            + min (baseYieldAmount c10s4 1 0 0 / 5) c10s4.yieldSubsidyPool)
          c10s4.maxYieldPerHarvest
    ∧ c10s4.maxYieldPerHarvest
        < baseYieldAmount c10s4 1 0 0
          + min (baseYieldAmount c10s4 1 0 0 / 5) c10s4.yieldSubsidyPool
    ∧ (c10s4.maxYieldPerHarvest : ℤ) - (baseYieldAmount c10s4 1 0 0 : ℤ)
        < (min (baseYieldAmount c10s4 1 0 0 / 5) c10s4.yieldSubsidyPool : ℤ) := by
  have h : harvestYield c10s4 61 1 1 0 0 = .ok (c10s5, 100) := rfl
  have hc := C10_subsidy_drained_past_cap h (by decide) (by decide)
  exact ⟨h, by decide, by decide, hc.1, hc.2.1, by decide, hc.2.2 (by decide)⟩

end EconomyEngine